import Mathlib

/-!
Verification of the Stanford tagger adapter (`nltk/tag/stanford.py`).

The module is a thin process-invocation adapter: `StanfordTagger.batch_tag`
saves the process-wide Java options, applies the per-instance options,
creates a temporary input file, writes the space/newline-serialized
sentences, invokes the external `java` launcher on the command built by the
`_cmd` property, optionally decodes the captured stdout, unlinks the
temporary file, restores the Java options, and parses the output into
per-sentence lists of separator-split tokens.

The embedding below models the Python string operations used by the code
(`str.strip`, `str.split` with and without a separator argument,
`str.join`) at the character-list level, and models `batch_tag` as a pure
function of its external collaborators: the process launcher (`proc`), the
byte decoder (`decode`), the fresh temporary-file path (`tmpPath`) and the
pre-call value of the process-wide Java options slot (`g0`).  Exceptions
are modelled with `Except`; the observable effects of a call (the final
value of the options slot, whether the temporary file still exists, and
the command lines handed to the launcher) are returned in a `BatchOutcome`
record.
-/

namespace StanfordTag

/-! ## Python string primitives (character-list level) -/

/-- Python's `str.isspace` set for the whitespace characters relevant to
`str.strip()` and `str.split()`. -/
def pyIsSpace (c : Char) : Bool :=
  c == ' ' || c == '\t' || c == '\n' || c == '\r' || c == '\x0b' || c == '\x0c'

/-- Python's `str.split(sep)` semantics, generalized to a predicate: split at
every character satisfying `p`, keeping empty parts; `"".split(sep) = [""]`. -/
def pySplitPred (p : Char → Bool) : List Char → List (List Char)
  | [] => [[]]
  | c :: rest =>
    if p c then [] :: pySplitPred p rest
    else
      match pySplitPred p rest with
      | [] => [[c]]
      | g :: gs => (c :: g) :: gs

/-- Python's `s.split(sep)` for a one-character separator `sep`. -/
def pySplitChar (sep : Char) (l : List Char) : List (List Char) :=
  pySplitPred (fun c => c == sep) l

/-- Python's `s.split()` (no argument): split on whitespace runs, discarding
empty parts; `"".split() = []`. -/
def pySplitWs (l : List Char) : List (List Char) :=
  (pySplitPred pyIsSpace l).filter (fun w => !w.isEmpty)

/-- Python's `s.strip()`: drop leading and trailing whitespace. -/
def pyStrip (l : List Char) : List Char :=
  ((l.dropWhile pyIsSpace).reverse.dropWhile pyIsSpace).reverse

/-- Python's `sep.join(xs)` for a one-character separator: the pieces
interleaved with the separator. -/
def joinCh (d : Char) : List (List Char) → List Char
  | [] => []
  | [x] => x
  | x :: y :: ys => x ++ d :: joinCh d (y :: ys)

/-! ## Data model -/

/-- The state a `StanfordTagger` instance carries into `batch_tag`
(`stanford.py` lines 36-51): the configured encoding, the per-instance Java
options, the subclass's separator character (`_SEPARATOR`, `'_'` for
`POSTagger` and `'/'` for `NERTagger`) and the subclass's `_cmd` property,
which rebuilds the command list from the instance's current input-file path
every time it is read. -/
structure Tagger where
  sep : Char
  encoding : Option String
  java_options : String
  cmd : String → List String

/-- Exceptions a `batch_tag`/`tag` call can propagate. -/
inductive TagError where
  /-- `nltk.internals.java` raised (abnormal exit); carries stderr text. -/
  | processError (stderr : String)
  /-- `stanpos_output.decode(encoding)` raised (line 79). -/
  | decodeError
  /-- `[0]` on an empty result list raised IndexError (line 54). -/
  | indexError
deriving DecidableEq

/-- The observable outcome of one `batch_tag` call: the returned value or
propagated exception, the final value of the process-wide Java options slot
(`nltk.internals._java_options`), whether this call's temporary input file
still exists, and the command lines passed to the process launcher. -/
structure BatchOutcome where
  result : Except TagError (List (List (List String)))
  javaOptions : String
  tempFileExists : Bool
  commands : List (List String)

/-- `'\n'.join(' '.join(x) for x in sentences)` (line 69). -/
def serialize (sentences : List (List String)) : String :=
  String.mk (joinCh '\n' (sentences.map fun x => joinCh ' ' (x.map String.toList)))

/-- Lines 88-92: `stanpos_output.strip().split("\n")`, then per line
`tagged_sentence.strip().split()`, then per word
`tuple(tagged_word.strip().split(self._SEPARATOR))`.  A Python tuple of
split parts is modelled as the list of parts (its arity is whatever the
split produces). -/
def parse_output (sep : Char) (out : String) : List (List (List String)) :=
  (pySplitChar '\n' (pyStrip out.toList)).map fun tagged_sentence =>
    (pySplitWs (pyStrip tagged_sentence)).map fun tagged_word =>
      (pySplitChar sep (pyStrip tagged_word)).map String.mk

/-- `StanfordTagger.batch_tag` (lines 56-93), as a function of its external
collaborators: `g0` is the pre-call value of the process-wide Java options
slot, `tmpPath` the path `tempfile.mkstemp` returns, `proc` the launcher
(given the command line and the temporary file's contents it returns stdout
or raises), and `decode` the byte decoder used when an encoding is
configured.  The optional input-encoding step (lines 70-71) is the identity
on the abstract text. -/
def batch_tag (t : Tagger) (g0 : String) (tmpPath : String)
    (proc : List String → String → Except String String)
    (decode : String → Option String)
    (sentences : List (List String)) : BatchOutcome :=
  -- line 57: encoding = self._encoding
  let encoding := t.encoding
  -- line 58: default_options = ' '.join(nltk.internals._java_options)
  let default_options := g0
  -- line 59: config_java(options=self.java_options): the slot now holds
  -- t.java_options
  -- line 62: tempfile.mkstemp: the temporary file now exists at tmpPath
  -- lines 64-65: self._cmd.extend(['-encoding', encoding]).  `_cmd` is a
  -- property whose getter builds a fresh list on every read, so the extend
  -- mutates a list no reference survives to; it cannot affect the command
  -- read again at line 76.
  let _lost := encoding.map fun e => t.cmd tmpPath ++ ["-encoding", e]
  -- lines 68-73: write the serialized sentences into the temporary file
  let blob := serialize sentences
  -- line 76: java(self._cmd, ...): the property is read afresh here
  let command := t.cmd tmpPath
  match proc command blob with
  | .error stderr =>
      -- the exception propagates: lines 78-93 (unlink, restore, parse) are
      -- skipped
      { result := .error (.processError stderr), javaOptions := t.java_options,
        tempFileExists := true, commands := [command] }
  | .ok raw =>
    -- lines 78-79: decode stdout if an encoding is configured
    match (match encoding with | none => some raw | some _ => decode raw) with
    | none =>
        { result := .error .decodeError, javaOptions := t.java_options,
          tempFileExists := true, commands := [command] }
    | some out =>
        -- line 82: os.unlink; line 85: config_java(options=default_options);
        -- lines 88-93: parse
        { result := .ok (parse_output t.sep out), javaOptions := default_options,
          tempFileExists := false, commands := [command] }

/-- `StanfordTagger.tag` (lines 53-54): `self.batch_tag([tokens])[0]`. -/
def tag (t : Tagger) (g0 : String) (tmpPath : String)
    (proc : List String → String → Except String String)
    (decode : String → Option String)
    (tokens : List String) : Except TagError (List (List String)) :=
  match (batch_tag t g0 tmpPath proc decode [tokens]).result with
  | .error e => .error e
  | .ok [] => .error .indexError
  | .ok (s :: _) => .ok s

/-! ## Construction -/

/-- The collaborators `StanfordTagger.__init__` consults: the result of
`nltk.internals.find_jar` (`none` means it raised) and `os.path.isfile`. -/
structure InitEnv where
  jarFound : Option String
  modelIsFile : String → Bool

/-- Exceptions `__init__` can propagate. -/
inductive InitError where
  /-- `nltk.internals.find_jar` raised (lines 38-41). -/
  | artifactResolutionError
  /-- `IOError("Stanford tagger model file not found: ...")` (line 44). -/
  | modelNotFound (path : String)
deriving DecidableEq

/-- The attributes `__init__` stores on success (lines 38, 45-47). -/
structure TaggerState where
  stanford_jar : String
  stanford_model : String
  encoding : Option String
  java_options : String

/-- `StanfordTagger.__init__` (lines 36-47).  The second component records
the command lines passed to the process launcher during construction: the
constructor invokes no process, so it is always `[]`. -/
def StanfordTagger_init (env : InitEnv) (path_to_model : String)
    (encoding : Option String) (java_options : String) :
    Except InitError TaggerState × List (List String) :=
  (match env.jarFound with
   | none => .error .artifactResolutionError
   | some jar =>
     if env.modelIsFile path_to_model then
       .ok { stanford_jar := jar, stanford_model := path_to_model,
             encoding := encoding, java_options := java_options }
     else
       .error (.modelNotFound path_to_model),
   [])

/-! ## The two profiles -/

/-- `POSTagger._SEPARATOR` (line 110). -/
def POSTagger_SEPARATOR : Char := '_'

/-- `NERTagger._SEPARATOR` (line 139). -/
def NERTagger_SEPARATOR : Char := '/'

/-- `POSTagger._cmd` (lines 116-120), as a function of the stored model path
and the instance's current input-file path. -/
def POSTagger_cmd (stanford_model : String) (input_file_path : String) :
    List String :=
  ["edu.stanford.nlp.tagger.maxent.MaxentTagger",
   "-model", stanford_model, "-textFile", input_file_path,
   "-tokenize", "false"]

/-- `NERTagger._cmd` (lines 145-149). -/
def NERTagger_cmd (stanford_model : String) (input_file_path : String) :
    List String :=
  ["edu.stanford.nlp.ie.crf.CRFClassifier",
   "-loadClassifier", stanford_model, "-textFile", input_file_path,
   "-outputFormat", "slashTags"]

/-- A constructed `POSTagger` instance as seen by `batch_tag`. -/
def mkPOSTagger (model : String) (encoding : Option String)
    (java_options : String) : Tagger :=
  { sep := POSTagger_SEPARATOR, encoding := encoding,
    java_options := java_options, cmd := POSTagger_cmd model }

/-- A constructed `NERTagger` instance as seen by `batch_tag`. -/
def mkNERTagger (model : String) (encoding : Option String)
    (java_options : String) : Tagger :=
  { sep := NERTagger_SEPARATOR, encoding := encoding,
    java_options := java_options, cmd := NERTagger_cmd model }

/-- Modelled from the spec: `TaggerProfile.buildCommand` as section 4.2
step 3 describes it — the profile-specific command for the model path and
input path, with `-encoding <name>` appended when an encoding is
configured.  The implementation of this step in `batch_tag` (lines 64-65)
is compared against this definition. -/
def buildCommand_spec (t : Tagger) (inputPath : String) : List String :=
  match t.encoding with
  | none => t.cmd inputPath
  | some e => t.cmd inputPath ++ ["-encoding", e]

/-! ## The echo stub of the spec's testable properties -/

/-- One echoed word of the stub executable: `token<SEP>DUMMY`. -/
def wordOf (sep : Char) (tok : String) : List Char :=
  tok.toList ++ sep :: "DUMMY".toList

/-- One echoed line of the stub executable: the sentence's echoed words,
space-joined. -/
def lineOf (sep : Char) (s : List String) : List Char :=
  joinCh ' ' (s.map (wordOf sep))

/-- The stub executable's full output: one echoed line per input sentence,
newline-joined. -/
def echoOutput (sep : Char) (sentences : List (List String)) : String :=
  String.mk (joinCh '\n' (sentences.map (lineOf sep)))

/-! ## Helper lemmas about the split/strip/join primitives -/

theorem pySplitPred_ne_nil (p : Char → Bool) : ∀ l : List Char, pySplitPred p l ≠ []
  | [] => by simp [pySplitPred]
  | c :: rest => by
    have ih := pySplitPred_ne_nil p rest
    cases hc : p c
    · rcases hr : pySplitPred p rest with _ | ⟨g, gs⟩
      · exact absurd hr ih
      · simp [pySplitPred, hc, hr]
    · simp [pySplitPred, hc]

theorem split_all_false (p : Char → Bool) :
    ∀ l : List Char, (∀ c ∈ l, p c = false) → pySplitPred p l = [l]
  | [] => fun _ => by simp [pySplitPred]
  | c :: rest => fun h => by
    have hc : p c = false := h c (by simp)
    have ih := split_all_false p rest fun x hx => h x (by simp [hx])
    simp [pySplitPred, hc, ih]

theorem split_append_sep (p : Char → Bool) (d : Char) (l₂ : List Char)
    (hd : p d = true) :
    ∀ l₁ : List Char, (∀ c ∈ l₁, p c = false) →
      pySplitPred p (l₁ ++ d :: l₂) = l₁ :: pySplitPred p l₂
  | [] => fun _ => by simp [pySplitPred, hd]
  | c :: rest => fun h => by
    have hc : p c = false := h c (by simp)
    have ih := split_append_sep p d l₂ hd rest fun x hx => h x (by simp [hx])
    simp [pySplitPred, hc, ih]

theorem split_joinCh (p : Char → Bool) (d : Char) (hd : p d = true) :
    ∀ xs : List (List Char), xs ≠ [] → (∀ x ∈ xs, ∀ c ∈ x, p c = false) →
      pySplitPred p (joinCh d xs) = xs
  | [] => fun h _ => absurd rfl h
  | [x] => fun _ hc => by
    simpa [joinCh] using split_all_false p x (hc x (by simp))
  | x :: y :: ys => fun _ hc => by
    have ih := split_joinCh p d hd (y :: ys) (by simp)
      fun z hz c hcz => hc z (List.mem_cons_of_mem _ hz) c hcz
    rw [show joinCh d (x :: y :: ys) = x ++ d :: joinCh d (y :: ys) from rfl,
      split_append_sep p d (joinCh d (y :: ys)) hd x (hc x (by simp)), ih]

theorem joinCh_ne_nil (d : Char) :
    ∀ xs : List (List Char), xs ≠ [] → (∀ x ∈ xs, x ≠ []) → joinCh d xs ≠ []
  | [] => fun h _ => absurd rfl h
  | [x] => fun _ hx => by simpa [joinCh] using hx x (by simp)
  | x :: y :: ys => fun _ hx => by
    rcases hxe : x with _ | ⟨a, r⟩
    · exact absurd hxe (hx x (by simp))
    · simp [joinCh]

theorem head?_joinCh (d : Char) (x : List Char) (xs : List (List Char))
    (hx : x ≠ []) : (joinCh d (x :: xs)).head? = x.head? := by
  cases xs with
  | nil => rfl
  | cons y ys =>
    rcases x with _ | ⟨a, r⟩
    · exact absurd rfl hx
    · rfl

theorem getLast?_joinCh (d : Char) :
    ∀ (xs : List (List Char)) (x : List Char), (∀ y ∈ xs, y ≠ []) →
      xs.getLast? = some x → (joinCh d xs).getLast? = x.getLast?
  | [], x => fun _ h => by simp at h
  | [z], x => fun _ h => by
    simp at h
    subst h
    rfl
  | z :: w :: ws, x => fun hall h => by
    have hne : joinCh d (w :: ws) ≠ [] :=
      joinCh_ne_nil d (w :: ws) (by simp)
        fun y hy => hall y (List.mem_cons_of_mem _ hy)
    have ih := getLast?_joinCh d (w :: ws) x
      (fun y hy => hall y (List.mem_cons_of_mem _ hy)) (by simpa using h)
    rw [show joinCh d (z :: w :: ws) = z ++ d :: joinCh d (w :: ws) from rfl,
      List.getLast?_append_cons,
      show (d :: joinCh d (w :: ws)) = [d] ++ joinCh d (w :: ws) from rfl,
      List.getLast?_append_of_ne_nil [d] hne, ih]

theorem mem_joinCh (d : Char) :
    ∀ (xs : List (List Char)) (c : Char), c ∈ joinCh d xs →
      c = d ∨ ∃ x ∈ xs, c ∈ x
  | [] => fun c h => by simp [joinCh] at h
  | [x] => fun c h => .inr ⟨x, by simp, by simpa [joinCh] using h⟩
  | x :: y :: ys => fun c h => by
    rw [show joinCh d (x :: y :: ys) = x ++ d :: joinCh d (y :: ys) from rfl] at h
    rcases List.mem_append.mp h with h1 | h2
    · exact .inr ⟨x, by simp, h1⟩
    · rcases List.mem_cons.mp h2 with h3 | h4
      · exact .inl h3
      · rcases mem_joinCh d (y :: ys) c h4 with h5 | ⟨z, hz, hcz⟩
        · exact .inl h5
        · exact .inr ⟨z, List.mem_cons_of_mem _ hz, hcz⟩

theorem dropWhile_eq_self_of_head? (p : Char → Bool) (l : List Char)
    (h : ∀ a, l.head? = some a → p a = false) : l.dropWhile p = l := by
  cases l with
  | nil => rfl
  | cons a rest => simp [List.dropWhile_cons, h a rfl]

theorem pyStrip_eq_self_of_ends (l : List Char) (a b : Char)
    (ha : l.head? = some a) (hsa : pyIsSpace a = false)
    (hb : l.getLast? = some b) (hsb : pyIsSpace b = false) : pyStrip l = l := by
  have h1 : l.dropWhile pyIsSpace = l :=
    dropWhile_eq_self_of_head? _ _ fun x hx => by
      rw [ha] at hx
      exact (Option.some.inj hx) ▸ hsa
  have h2 : l.reverse.dropWhile pyIsSpace = l.reverse :=
    dropWhile_eq_self_of_head? _ _ fun x hx => by
      rw [List.head?_reverse, hb] at hx
      exact (Option.some.inj hx) ▸ hsb
  unfold pyStrip
  rw [h1, h2, List.reverse_reverse]

theorem pyStrip_eq_self_of_all (l : List Char)
    (h : ∀ c ∈ l, pyIsSpace c = false) : pyStrip l = l := by
  rcases l with _ | ⟨a, r⟩
  · rfl
  · have hlast := List.getLast?_eq_getLast_of_ne_nil (List.cons_ne_nil a r)
    exact pyStrip_eq_self_of_ends _ a ((a :: r).getLast (List.cons_ne_nil a r))
      rfl (h a (by simp)) hlast
      (h _ (List.getLast_mem (List.cons_ne_nil a r)))

theorem pySplitPred_length (p : Char → Bool) :
    ∀ l : List Char, (pySplitPred p l).length = l.countP p + 1
  | [] => by simp [pySplitPred]
  | c :: rest => by
    have ih := pySplitPred_length p rest
    cases hc : p c
    · rcases hr : pySplitPred p rest with _ | ⟨g, gs⟩
      · exact absurd hr (pySplitPred_ne_nil p rest)
      · rw [hr] at ih
        simp only [pySplitPred, hc, Bool.false_eq_true, if_false, hr,
          List.countP_cons, List.length_cons]
        simpa using ih
    · simp [pySplitPred, hc, List.countP_cons, ih]

theorem parse_output_ne_nil (sep : Char) (out : String) :
    parse_output sep out ≠ [] := by
  unfold parse_output pySplitChar
  intro h
  exact pySplitPred_ne_nil _ _ (List.map_eq_nil_iff.mp h)

/-! ## Helper lemmas about `batch_tag` -/

/-- A `batch_tag` call either propagates an exception or returns the parsed
output of some decoded stdout text. -/
theorem batch_tag_result_shape (t : Tagger) (g0 tmpPath : String)
    (proc : List String → String → Except String String)
    (decode : String → Option String) (sentences : List (List String)) :
    (∃ e, (batch_tag t g0 tmpPath proc decode sentences).result = .error e) ∨
    (∃ out, (batch_tag t g0 tmpPath proc decode sentences).result =
      .ok (parse_output t.sep out)) := by
  rcases hp : proc (t.cmd tmpPath) (serialize sentences) with e | raw
  · exact .inl ⟨.processError e, by simp [batch_tag, hp]⟩
  · rcases hE : t.encoding with _ | enc
    · exact .inr ⟨raw, by simp [batch_tag, hp, hE]⟩
    · rcases hd : decode raw with _ | out
      · exact .inl ⟨.decodeError, by simp [batch_tag, hp, hE, hd]⟩
      · exact .inr ⟨out, by simp [batch_tag, hp, hE, hd]⟩

/-- A successful `batch_tag` call never returns an empty list of tagged
sentences: splitting any output on newlines yields at least one line. -/
theorem batch_tag_ok_ne_nil (t : Tagger) (g0 tmpPath : String)
    (proc : List String → String → Except String String)
    (decode : String → Option String) (sentences : List (List String))
    (r : List (List (List String)))
    (h : (batch_tag t g0 tmpPath proc decode sentences).result = .ok r) :
    r ≠ [] := by
  rcases batch_tag_result_shape t g0 tmpPath proc decode sentences with
    ⟨e, he⟩ | ⟨out, ho⟩
  · rw [he] at h
    exact Except.noConfusion h
  · rw [ho] at h
    injection h with h'
    exact h' ▸ parse_output_ne_nil t.sep out

/-! ## Claim theorems -/

/-- Claim C1 (code bug): with an encoding configured, the command line
actually passed to the process launcher does NOT contain the `-encoding`
argument.  Line 65 extends the throwaway list returned by the `_cmd`
property getter, so the command read afresh at line 76 is the bare
profile command; the spec-modelled `buildCommand_spec` does contain the
flag. -/
theorem c1_encoding_flag_never_passed :
    (batch_tag (mkPOSTagger "model.tagger" (some "utf-8") "-mx1000m") "g0"
        "/tmp/input" (fun _ _ => .ok "What_WP") (fun s => some s)
        [["What"]]).commands = [POSTagger_cmd "model.tagger" "/tmp/input"] ∧
    (∀ c ∈ (batch_tag (mkPOSTagger "model.tagger" (some "utf-8") "-mx1000m")
        "g0" "/tmp/input" (fun _ _ => .ok "What_WP") (fun s => some s)
        [["What"]]).commands, "-encoding" ∉ c) ∧
    "-encoding" ∈ buildCommand_spec
      (mkPOSTagger "model.tagger" (some "utf-8") "-mx1000m") "/tmp/input" := by
  refine ⟨rfl, ?_, by decide⟩
  decide

/-- Claim C2 counterexample: when the launcher raises (abnormal process
exit), the temporary input file is NOT deleted — lines 76-82 run
sequentially with no try/finally, so the unlink at line 82 is skipped. -/
theorem c2_counterexample_temp_file_leaks_on_process_failure :
    (batch_tag (mkPOSTagger "model.tagger" none "-mx1000m") "g0" "/tmp/input"
        (fun _ _ => .error "java crashed") (fun s => some s)
        [["What"]]).tempFileExists = true ∧
    (batch_tag (mkPOSTagger "model.tagger" none "-mx1000m") "g0" "/tmp/input"
        (fun _ _ => .error "java crashed") (fun s => some s)
        [["What"]]).result = .error (.processError "java crashed") :=
  ⟨rfl, rfl⟩

/-- Claim C2 amended: the temporary input file is deleted on the success
path only; when the process launch/execution step or the output-decoding
step fails, the deletion at line 82 is skipped and the file remains. -/
theorem c2_cleanup_only_on_success (t : Tagger) (g0 tmpPath : String)
    (proc : List String → String → Except String String)
    (decode : String → Option String) (sentences : List (List String)) :
    ((∃ r, (batch_tag t g0 tmpPath proc decode sentences).result = .ok r) →
      (batch_tag t g0 tmpPath proc decode sentences).tempFileExists = false) ∧
    ((∃ e, (batch_tag t g0 tmpPath proc decode sentences).result = .error e) →
      (batch_tag t g0 tmpPath proc decode sentences).tempFileExists = true) := by
  rcases hp : proc (t.cmd tmpPath) (serialize sentences) with e | raw
  · simp [batch_tag, hp]
  · rcases hE : t.encoding with _ | enc
    · simp [batch_tag, hp, hE]
    · rcases hd : decode raw with _ | out
      · simp [batch_tag, hp, hE, hd]
      · simp [batch_tag, hp, hE, hd]

theorem c2_cleanup_only_on_success_witness :
    (batch_tag (mkPOSTagger "model.tagger" none "-mx1000m") "g0" "/tmp/input"
        (fun _ _ => .ok "What_WP") (fun s => some s)
        [["What"]]).tempFileExists = false :=
  (c2_cleanup_only_on_success (mkPOSTagger "model.tagger" none "-mx1000m")
    "g0" "/tmp/input" (fun _ _ => .ok "What_WP") (fun s => some s)
    [["What"]]).1 ⟨_, rfl⟩

/-- Claim C3 counterexample: when the launcher raises, the restore at line
85 is skipped and the process-wide Java options slot keeps the per-call
value, not its pre-call value. -/
theorem c3_counterexample_options_not_restored_on_failure :
    (batch_tag (mkPOSTagger "model.tagger" none "-mx1000m") "-mxDEFAULT"
        "/tmp/input" (fun _ _ => .error "java crashed") (fun s => some s)
        [["What"]]).javaOptions = "-mx1000m" ∧
    "-mx1000m" ≠ "-mxDEFAULT" :=
  ⟨rfl, by decide⟩

/-- Claim C3 amended: the process-wide Java options slot is restored to its
pre-call value on the success path only; when the process or the decoding
step fails, the slot keeps the per-call `java_options` value. -/
theorem c3_options_restored_only_on_success (t : Tagger) (g0 tmpPath : String)
    (proc : List String → String → Except String String)
    (decode : String → Option String) (sentences : List (List String)) :
    ((∃ r, (batch_tag t g0 tmpPath proc decode sentences).result = .ok r) →
      (batch_tag t g0 tmpPath proc decode sentences).javaOptions = g0) ∧
    ((∃ e, (batch_tag t g0 tmpPath proc decode sentences).result = .error e) →
      (batch_tag t g0 tmpPath proc decode sentences).javaOptions
        = t.java_options) := by
  rcases hp : proc (t.cmd tmpPath) (serialize sentences) with e | raw
  · simp [batch_tag, hp]
  · rcases hE : t.encoding with _ | enc
    · simp [batch_tag, hp, hE]
    · rcases hd : decode raw with _ | out
      · simp [batch_tag, hp, hE, hd]
      · simp [batch_tag, hp, hE, hd]

theorem c3_options_restored_only_on_success_witness :
    (batch_tag (mkPOSTagger "model.tagger" none "-mx1000m") "-mxDEFAULT"
        "/tmp/input" (fun _ _ => .ok "What_WP") (fun s => some s)
        [["What"]]).javaOptions = "-mxDEFAULT" :=
  (c3_options_restored_only_on_success
    (mkPOSTagger "model.tagger" none "-mx1000m") "-mxDEFAULT" "/tmp/input"
    (fun _ _ => .ok "What_WP") (fun s => some s) [["What"]]).1 ⟨_, rfl⟩

/-- Claim C5 counterexample: on the empty batch the echo stub's output is
the empty string, and `''.strip().split("\n") == ['']`, so `batch_tag`
returns one (empty) tagged sentence, not zero. -/
theorem c5_counterexample_empty_batch_one_sentence :
    (batch_tag (mkPOSTagger "model.tagger" none "-mx1000m") "g0" "/tmp/input"
        (fun _ _ => .ok (echoOutput POSTagger_SEPARATOR [])) (fun s => some s)
        []).result = .ok [[]] ∧
    (Except.ok [[]] : Except TagError (List (List (List String)))) ≠ .ok [] :=
  ⟨rfl, by simp⟩

/-- Claim C5 amended: invoking with zero sentences returns, without error,
a response containing exactly one EMPTY tagged sentence (splitting the
empty process output on newline yields one empty line); more generally a
successful call never returns zero tagged sentences. -/
theorem c5_empty_batch_yields_single_empty_sentence (t : Tagger)
    (g0 tmpPath : String) (decode : String → Option String)
    (proc : List String → String → Except String String)
    (henc : t.encoding = none) :
    (batch_tag t g0 tmpPath (fun _ _ => .ok (echoOutput t.sep [])) decode
        []).result = .ok [[]] ∧
    (∀ r, (batch_tag t g0 tmpPath proc decode []).result = .ok r → r ≠ []) := by
  constructor
  · simp only [batch_tag, henc]
    rfl
  · exact fun r h => batch_tag_ok_ne_nil t g0 tmpPath proc decode [] r h

theorem c5_empty_batch_yields_single_empty_sentence_witness :
    (batch_tag (mkPOSTagger "model.tagger" none "-mx1000m") "g0" "/tmp/input"
        (fun _ _ => .ok (echoOutput POSTagger_SEPARATOR [])) (fun s => some s)
        []).result = .ok [[]] :=
  (c5_empty_batch_yields_single_empty_sentence
    (mkPOSTagger "model.tagger" none "-mx1000m") "g0" "/tmp/input"
    (fun s => some s) (fun _ _ => .ok (echoOutput POSTagger_SEPARATOR []))
    rfl).1

/-- Claim C7: constructing an adapter whose model path is not an existing
file fails with the not-found `IOError` (the spec's `ConfigurationError`),
and construction passes no command to the process launcher. -/
theorem c7_missing_model_fails_before_launch (env : InitEnv)
    (path_to_model : String) (encoding : Option String)
    (java_options : String) (jar : String)
    (hjar : env.jarFound = some jar)
    (hmodel : env.modelIsFile path_to_model = false) :
    StanfordTagger_init env path_to_model encoding java_options =
      (.error (.modelNotFound path_to_model), []) := by
  simp [StanfordTagger_init, hjar, hmodel]

theorem c7_missing_model_fails_before_launch_witness :
    StanfordTagger_init ⟨some "stanford-postagger.jar", fun _ => false⟩
      "missing.tagger" none "-mx1000m" =
      (.error (.modelNotFound "missing.tagger"), []) :=
  c7_missing_model_fails_before_launch
    ⟨some "stanford-postagger.jar", fun _ => false⟩ "missing.tagger" none
    "-mx1000m" "stanford-postagger.jar" rfl rfl

/-- Claim C8: under the POS profile (separator `'_'`) the output line
`What_WP is_VBZ` parses to the pairs `("What","WP"), ("is","VBZ")`, and
under the NER profile (separator `'/'`) the line `Rami/PERSON Eid/PERSON`
parses to `("Rami","PERSON"), ("Eid","PERSON")` (pairs are two-part
tuples, modelled as two-element lists). -/
theorem c8_separator_fidelity :
    parse_output POSTagger_SEPARATOR "What_WP is_VBZ" =
      [[["What", "WP"], ["is", "VBZ"]]] ∧
    parse_output NERTagger_SEPARATOR "Rami/PERSON Eid/PERSON" =
      [[["Rami", "PERSON"], ["Eid", "PERSON"]]] :=
  ⟨rfl, rfl⟩

/-- Claim C10: `find_jar` runs before the model-path check (lines 38-44):
whenever artifact resolution fails, construction fails with the
artifact-resolution error regardless of the model path, and the
model-not-found error can only arise when artifact resolution succeeded. -/
theorem c10_jar_resolution_precedes_model_check :
    (∀ (env : InitEnv) (p : String) (e : Option String) (o : String),
      env.jarFound = none →
      (StanfordTagger_init env p e o).1 = .error .artifactResolutionError) ∧
    (∀ (env : InitEnv) (p : String) (e : Option String) (o p' : String),
      (StanfordTagger_init env p e o).1 = .error (.modelNotFound p') →
      env.jarFound.isSome = true) := by
  constructor
  · intro env p e o h
    simp [StanfordTagger_init, h]
  · intro env p e o p' h
    rcases hj : env.jarFound with _ | jar
    · simp [StanfordTagger_init, hj] at h
    · simp [hj]

/-- Claim C4 counterexample: a tagged-word token with two separator
occurrences parses to a THREE-part tuple and the invocation succeeds;
no `OutputParseError` exists anywhere in the code. -/
theorem c4_counterexample_three_part_token_no_error :
    (batch_tag (mkPOSTagger "model.tagger" none "-mx1000m") "g0" "/tmp/input"
        (fun _ _ => .ok "a_b_c") (fun s => some s) [["a"]]).result
      = .ok [[["a", "b", "c"]]] :=
  rfl

/-- Claim C4 amended: the parser splits each tagged-word token on EVERY
occurrence of the separator, yielding one more part than the number of
occurrences — so a token with other than exactly one occurrence yields a
tuple of other than two parts — and parsing never fails: whenever the
process and decoding steps succeed, the invocation returns the parsed
output. -/
theorem c4_split_on_every_occurrence_total :
    (∀ (sep : Char) (w : List Char),
      (pySplitChar sep w).length = w.countP (fun c => c == sep) + 1) ∧
    (∀ (t : Tagger) (g0 tmpPath : String)
      (proc : List String → String → Except String String)
      (decode : String → Option String)
      (sentences : List (List String)) (raw : String),
      t.encoding = none →
      proc (t.cmd tmpPath) (serialize sentences) = .ok raw →
      (batch_tag t g0 tmpPath proc decode sentences).result =
        .ok (parse_output t.sep raw)) := by
  constructor
  · exact fun sep w => pySplitPred_length (fun c => c == sep) w
  · intro t g0 tmpPath proc decode sentences raw henc hp
    simp [batch_tag, hp, henc]

theorem c4_split_on_every_occurrence_total_witness :
    (batch_tag (mkPOSTagger "model.tagger" none "-mx1000m") "g0" "/tmp/input"
        (fun _ _ => .ok "a_b_c") (fun s => some s) [["a"]]).result =
      .ok (parse_output POSTagger_SEPARATOR "a_b_c") :=
  c4_split_on_every_occurrence_total.2
    (mkPOSTagger "model.tagger" none "-mx1000m") "g0" "/tmp/input"
    (fun _ _ => .ok "a_b_c") (fun s => some s) [["a"]] "a_b_c" rfl rfl

/-- Claim C9: `tag` returns exactly the first element of `batch_tag` on the
one-element batch containing the sentence: if the batch call raises, `tag`
propagates the same exception; if it returns, the returned list is
nonempty and `tag` returns its first element. -/
theorem c9_tag_is_first_of_batch (t : Tagger) (g0 tmpPath : String)
    (proc : List String → String → Except String String)
    (decode : String → Option String) (tokens : List String) :
    (∃ e, (batch_tag t g0 tmpPath proc decode [tokens]).result = .error e ∧
      tag t g0 tmpPath proc decode tokens = .error e) ∨
    (∃ s rest,
      (batch_tag t g0 tmpPath proc decode [tokens]).result = .ok (s :: rest) ∧
      tag t g0 tmpPath proc decode tokens = .ok s) := by
  rcases h : (batch_tag t g0 tmpPath proc decode [tokens]).result with e | r
  · exact .inl ⟨e, rfl, by simp [tag, h]⟩
  · have hne := batch_tag_ok_ne_nil t g0 tmpPath proc decode [tokens] r h
    rcases r with _ | ⟨s, rest⟩
    · exact absurd rfl hne
    · exact .inr ⟨s, rest, rfl, by simp [tag, h]⟩

theorem c10_jar_resolution_precedes_model_check_witness :
    (StanfordTagger_init ⟨none, fun _ => false⟩ "missing.tagger" none
      "-mx1000m").1 = .error .artifactResolutionError :=
  c10_jar_resolution_precedes_model_check.1 ⟨none, fun _ => false⟩
    "missing.tagger" none "-mx1000m" rfl

/-! ## Round-trip lemmas for the echo stub -/

theorem dummy_chars_not_space : ∀ c ∈ "DUMMY".toList, pyIsSpace c = false := by
  decide

theorem wordOf_ne_nil (sep : Char) (tok : String) : wordOf sep tok ≠ [] := by
  simp [wordOf]

theorem mem_wordOf (sep : Char) (tok : String) (c : Char)
    (h : c ∈ wordOf sep tok) :
    c ∈ tok.toList ∨ c = sep ∨ c ∈ "DUMMY".toList := by
  unfold wordOf at h
  rcases List.mem_append.mp h with h1 | h2
  · exact .inl h1
  · rcases List.mem_cons.mp h2 with h3 | h4
    · exact .inr (.inl h3)
    · exact .inr (.inr h4)

theorem wordOf_chars_not_space (sep : Char) (tok : String)
    (hsep : pyIsSpace sep = false)
    (htok : ∀ c ∈ tok.toList, pyIsSpace c = false) :
    ∀ c ∈ wordOf sep tok, pyIsSpace c = false := by
  intro c hc
  rcases mem_wordOf sep tok c hc with h | h | h
  · exact htok c h
  · exact h ▸ hsep
  · exact dummy_chars_not_space c h

theorem head?_wordOf_not_space (sep : Char) (tok : String)
    (hsep : pyIsSpace sep = false)
    (htok : ∀ c ∈ tok.toList, pyIsSpace c = false) :
    ∃ a, (wordOf sep tok).head? = some a ∧ pyIsSpace a = false := by
  unfold wordOf
  cases htl : tok.toList with
  | nil => exact ⟨sep, rfl, hsep⟩
  | cons a r =>
    refine ⟨a, rfl, htok a ?_⟩
    rw [htl]
    simp

theorem getLast?_wordOf (sep : Char) (tok : String) :
    (wordOf sep tok).getLast? = some 'Y' := by
  unfold wordOf
  rw [List.getLast?_append_cons]
  rfl

theorem lineOf_ne_nil (sep : Char) (s : List String) (hs : s ≠ []) :
    lineOf sep s ≠ [] := by
  apply joinCh_ne_nil ' '
  · simpa [List.map_eq_nil_iff] using hs
  · intro x hx
    rcases List.mem_map.mp hx with ⟨tok, _, rfl⟩
    exact wordOf_ne_nil sep tok

theorem head?_lineOf_not_space (sep : Char) (s : List String)
    (hs : s ≠ []) (hsep : pyIsSpace sep = false)
    (hclean : ∀ tok ∈ s, ∀ c ∈ tok.toList, pyIsSpace c = false) :
    ∃ a, (lineOf sep s).head? = some a ∧ pyIsSpace a = false := by
  rcases s with _ | ⟨t0, srest⟩
  · exact absurd rfl hs
  · unfold lineOf
    rw [List.map_cons, head?_joinCh ' ' _ _ (wordOf_ne_nil sep t0)]
    exact head?_wordOf_not_space sep t0 hsep (hclean t0 (by simp))

theorem getLast?_lineOf (sep : Char) (s : List String) (hs : s ≠ []) :
    (lineOf sep s).getLast? = some 'Y' := by
  rcases Option.isSome_iff_exists.mp (List.getLast?_isSome.mpr hs) with ⟨tl, htl⟩
  unfold lineOf
  rw [getLast?_joinCh ' ' (s.map (wordOf sep)) (wordOf sep tl)
      (by
        intro y hy
        rcases List.mem_map.mp hy with ⟨tok, _, rfl⟩
        exact wordOf_ne_nil sep tok)
      (by rw [List.getLast?_map, htl]; rfl),
    getLast?_wordOf]

theorem lineOf_chars (sep : Char) (s : List String) (c : Char)
    (h : c ∈ lineOf sep s) :
    c = ' ' ∨ ∃ tok ∈ s, c ∈ wordOf sep tok := by
  rcases mem_joinCh ' ' _ c h with h1 | ⟨x, hx, hcx⟩
  · exact .inl h1
  · rcases List.mem_map.mp hx with ⟨tok, htok, rfl⟩
    exact .inr ⟨tok, htok, hcx⟩

theorem pyStrip_lineOf (sep : Char) (s : List String) (hs : s ≠ [])
    (hsep : pyIsSpace sep = false)
    (hclean : ∀ tok ∈ s, ∀ c ∈ tok.toList, pyIsSpace c = false) :
    pyStrip (lineOf sep s) = lineOf sep s := by
  rcases head?_lineOf_not_space sep s hs hsep hclean with ⟨a, ha, hsa⟩
  exact pyStrip_eq_self_of_ends _ a 'Y' ha hsa (getLast?_lineOf sep s hs)
    (by decide)

theorem pySplitWs_lineOf (sep : Char) (s : List String) (hs : s ≠ [])
    (hsep : pyIsSpace sep = false)
    (hclean : ∀ tok ∈ s, ∀ c ∈ tok.toList, pyIsSpace c = false) :
    pySplitWs (lineOf sep s) = s.map (wordOf sep) := by
  unfold pySplitWs lineOf
  rw [split_joinCh pyIsSpace ' ' (by decide) _
      (by simpa [List.map_eq_nil_iff] using hs)
      (by
        intro x hx c hc
        rcases List.mem_map.mp hx with ⟨tok, htok, rfl⟩
        exact wordOf_chars_not_space sep tok hsep (hclean tok htok) c hc),
    List.filter_eq_self.mpr]
  intro w hw
  rcases List.mem_map.mp hw with ⟨tok, _, rfl⟩
  simpa using wordOf_ne_nil sep tok

theorem parse_wordOf (sep : Char) (tok : String)
    (hsep : pyIsSpace sep = false) (hsepD : sep ∉ "DUMMY".toList)
    (htok : ∀ c ∈ tok.toList, pyIsSpace c = false ∧ c ≠ sep) :
    (pySplitChar sep (pyStrip (wordOf sep tok))).map String.mk =
      [tok, "DUMMY"] := by
  rw [pyStrip_eq_self_of_all _
    (wordOf_chars_not_space sep tok hsep fun c hc => (htok c hc).1)]
  unfold pySplitChar wordOf
  rw [split_append_sep (fun c => c == sep) sep _ (by simp) tok.toList
      (fun c hc => beq_eq_false_iff_ne.mpr (htok c hc).2),
    split_all_false _ _ fun c hc =>
      beq_eq_false_iff_ne.mpr fun h => hsepD (by rw [← h]; exact hc)]
  rfl

theorem head?_echo_not_space (sep : Char) (sentences : List (List String))
    (hne : sentences ≠ []) (hsne : ∀ s ∈ sentences, s ≠ [])
    (hsep : pyIsSpace sep = false)
    (hclean : ∀ s ∈ sentences, ∀ tok ∈ s, ∀ c ∈ tok.toList,
      pyIsSpace c = false) :
    ∃ a, (joinCh '\n' (sentences.map (lineOf sep))).head? = some a ∧
      pyIsSpace a = false := by
  rcases sentences with _ | ⟨s0, srest⟩
  · exact absurd rfl hne
  · rw [List.map_cons,
      head?_joinCh '\n' _ _ (lineOf_ne_nil sep s0 (hsne s0 (by simp)))]
    exact head?_lineOf_not_space sep s0 (hsne s0 (by simp)) hsep
      (hclean s0 (by simp))

theorem getLast?_echo (sep : Char) (sentences : List (List String))
    (hne : sentences ≠ []) (hsne : ∀ s ∈ sentences, s ≠ []) :
    (joinCh '\n' (sentences.map (lineOf sep))).getLast? = some 'Y' := by
  rcases Option.isSome_iff_exists.mp (List.getLast?_isSome.mpr hne) with ⟨sl, hsl⟩
  have hslmem : sl ∈ sentences := by
    rcases List.mem_getLast?_eq_getLast (Option.mem_def.mpr hsl) with ⟨h9, h10⟩
    exact h10 ▸ List.getLast_mem h9
  rw [getLast?_joinCh '\n' (sentences.map (lineOf sep)) (lineOf sep sl)
      (by
        intro y hy
        rcases List.mem_map.mp hy with ⟨s, hsm, rfl⟩
        exact lineOf_ne_nil sep s (hsne s hsm))
      (by rw [List.getLast?_map, hsl]; rfl)]
  exact getLast?_lineOf sep sl (hsne sl hslmem)

theorem parse_echoOutput (sep : Char) (sentences : List (List String))
    (hne : sentences ≠ []) (hsne : ∀ s ∈ sentences, s ≠ [])
    (hsep : pyIsSpace sep = false) (hsepD : sep ∉ "DUMMY".toList)
    (hclean : ∀ s ∈ sentences, ∀ tok ∈ s, ∀ c ∈ tok.toList,
      pyIsSpace c = false ∧ c ≠ sep) :
    parse_output sep (echoOutput sep sentences) =
      sentences.map fun s => s.map fun tok => [tok, "DUMMY"] := by
  unfold parse_output echoOutput
  rcases head?_echo_not_space sep sentences hne hsne hsep
    (fun s hsm tok htok c hc => (hclean s hsm tok htok c hc).1) with ⟨a, ha, hsa⟩
  rw [show (String.mk (joinCh '\n' (sentences.map (lineOf sep)))).toList =
      joinCh '\n' (sentences.map (lineOf sep)) from rfl,
    pyStrip_eq_self_of_ends _ a 'Y' ha hsa
      (getLast?_echo sep sentences hne hsne) (by decide)]
  unfold pySplitChar
  rw [split_joinCh (fun c => c == '\n') '\n' (by decide) _
      (by simpa [List.map_eq_nil_iff] using hne)
      (by
        intro x hx c hc
        rcases List.mem_map.mp hx with ⟨s, hsm, rfl⟩
        rcases lineOf_chars sep s c hc with h1 | ⟨tok, htok, hcw⟩
        · rw [h1]; decide
        · have hns : pyIsSpace c = false :=
            wordOf_chars_not_space sep tok hsep
              (fun c2 hc2 => (hclean s hsm tok htok c2 hc2).1) c hcw
          refine beq_eq_false_iff_ne.mpr fun h => ?_
          rw [h] at hns
          exact absurd hns (by decide)),
    List.map_map]
  apply List.map_congr_left
  intro s hsm
  show (pySplitWs (pyStrip (lineOf sep s))).map _ = _
  rw [pyStrip_lineOf sep s (hsne s hsm) hsep
      (fun tok htok c hc => (hclean s hsm tok htok c hc).1),
    pySplitWs_lineOf sep s (hsne s hsm) hsep
      (fun tok htok c hc => (hclean s hsm tok htok c hc).1),
    List.map_map]
  apply List.map_congr_left
  intro tok htok
  exact parse_wordOf sep tok hsep hsepD (hclean s hsm tok htok)

/-- Claim C6 counterexample at N = 0: with zero sentences the echo stub
emits zero lines (the empty string), yet the call returns ONE tagged
sentence, not zero — the universally quantified claim fails for the empty
batch of non-empty sentences. -/
theorem c6_counterexample_empty_batch :
    (batch_tag (mkNERTagger "all.3class.crf.ser.gz" none "-mx1000m") "g0"
        "/tmp/input" (fun _ _ => .ok (echoOutput NERTagger_SEPARATOR []))
        (fun s => some s) []).result = .ok [[]] ∧
    ([[]] : List (List (List String))).length ≠ 0 :=
  ⟨rfl, by simp⟩

/-- Claim C6 amended (N ≥ 1): for every NONEMPTY batch of non-empty
sentences whose tokens contain no whitespace and no separator character,
running against the stub that echoes `token<SEP>DUMMY` space-joined per
line, one line per sentence, returns exactly one tagged sentence per input
sentence, the i-th having the same token count and token order as the i-th
input sentence (each token paired with the tag `DUMMY`). -/
theorem c6_round_trip_nonempty_batch (t : Tagger) (g0 tmpPath : String)
    (decode : String → Option String) (sentences : List (List String))
    (henc : t.encoding = none) (hne : sentences ≠ [])
    (hsne : ∀ s ∈ sentences, s ≠ [])
    (hsep : pyIsSpace t.sep = false) (hsepD : t.sep ∉ "DUMMY".toList)
    (hclean : ∀ s ∈ sentences, ∀ tok ∈ s, ∀ c ∈ tok.toList,
      pyIsSpace c = false ∧ c ≠ t.sep) :
    (batch_tag t g0 tmpPath (fun _ _ => .ok (echoOutput t.sep sentences))
        decode sentences).result =
      .ok (sentences.map fun s => s.map fun tok => [tok, "DUMMY"]) ∧
    (sentences.map fun s => s.map fun tok => [tok, "DUMMY"]).length =
      sentences.length ∧
    ∀ s ∈ sentences, (s.map fun tok => [tok, "DUMMY"]).length = s.length := by
  refine ⟨?_, by simp, by simp⟩
  simp only [batch_tag, henc]
  rw [parse_echoOutput t.sep sentences hne hsne hsep hsepD hclean]

theorem c6_round_trip_nonempty_batch_witness :
    (batch_tag (mkPOSTagger "model.tagger" none "-mx1000m") "g0" "/tmp/input"
        (fun _ _ =>
          .ok (echoOutput POSTagger_SEPARATOR [["What", "is"], ["Rami"]]))
        (fun s => some s) [["What", "is"], ["Rami"]]).result =
      .ok [[["What", "DUMMY"], ["is", "DUMMY"]], [["Rami", "DUMMY"]]] :=
  (c6_round_trip_nonempty_batch (mkPOSTagger "model.tagger" none "-mx1000m")
    "g0" "/tmp/input" (fun s => some s) [["What", "is"], ["Rami"]]
    rfl (by decide) (by decide) (by decide) (by decide) (by decide)).1

end StanfordTag
